import Mathlib

/-!
Shallow embedding of the SWAPI sync pipeline
(app/services/swapi_service.py, app/services/swapi_sync.py,
app/db_exceptions.py, app/routes/swapi_routes.py, app/models.py,
app/database.py) and proofs about its claimed properties.

Python dicts and ORM rows are modelled as association lists from field
names to nullable string values.  The SQLAlchemy session
(`sessionmaker(autocommit=False, autoflush=False)`, app/database.py:19)
is modelled as a pair of persisted and staged row lists: queries consult
only the persisted rows (no autoflush), `db.add` appends to the staged
rows, `db.commit` moves staged rows to persisted rows subject to the
schema constraints (`unique=True, nullable=False` on the natural-key
column, app/models.py), and `db.rollback` discards the staged rows.
Infrastructure failures (lost connection, missing tables, ...) are
injected through an explicit `fault` oracle at commit time; integrity
violations and Python KeyError/AttributeError arise organically.
-/

set_option autoImplicit false

namespace SwapiCrud

/-- A nullable column / dict value: `none` is Python `None` / SQL NULL. -/
abbrev Val := Option String

/-- A Python dict (raw record) or an ORM row: field name to value. -/
abbrev Record := List (String × Val)

abbrev Row := List (String × Val)

/-- First binding of field `f`, `none` when the key is absent
(Python `data[f]` raises KeyError in that case). -/
def lookupField : Record → String → Option Val
  | [], _ => none
  | (k, v) :: rest, f => if k = f then some v else lookupField rest f

/-- Column value of a row: a column that was never set is NULL. -/
def rowVal (r : Row) (f : String) : Val :=
  match lookupField r f with
  | some v => v
  | none => none

/-- The static data of one SQLAlchemy model class: its Python attribute
names (columns, relationships, primary key) used by
`hasattr(model_class, k)`, the natural-key column carrying
`unique=True, nullable=False`, and `__name__`. -/
structure ModelClass where
  attrs : List String
  uniqueCol : String
  name : String

/-- Embeds `class Character` (app/models.py:28). -/
def CharacterMC : ModelClass :=
  { attrs := ["id", "name", "gender", "birth_year", "films", "starships"]
    uniqueCol := "name"
    name := "Character" }

/-- Embeds `class Film` (app/models.py:38). -/
def FilmMC : ModelClass :=
  { attrs := ["id", "title", "director", "release_date", "characters", "starships"]
    uniqueCol := "title"
    name := "Film" }

/-- Embeds `class Starship` (app/models.py:48). -/
def StarshipMC : ModelClass :=
  { attrs := ["id", "name", "model", "manufacturer", "characters", "films"]
    uniqueCol := "name"
    name := "Starship" }

/-- One table as seen through a session: committed rows plus rows staged
by `db.add` but not yet flushed (autoflush is off). -/
structure Session where
  persisted : List Row
  staged : List Row
  deriving DecidableEq, Repr

/-- The exceptions distinguished by `handle_db_exception`
(app/db_exceptions.py): SQLAlchemy error classes plus the plain Python
errors (KeyError, AttributeError, TypeError) that fall into its
final `else` branch. -/
inductive DBError where
  | operational
  | programmingTableNotFound
  | programmingOther
  | integrity
  | noSuchModule
  | otherSQLAlchemy
  | keyError
  | attributeError
  | typeError
  deriving DecidableEq, Repr

/-- Errors taken by the final `else` branch of `handle_db_exception`
(not SQLAlchemy errors). -/
def isUnknownError : DBError → Bool
  | .keyError => true
  | .attributeError => true
  | .typeError => true
  | _ => false

/-- The `re_raise` flag after classification (app/db_exceptions.py:20-56):
true for every case except the ProgrammingError table-not-found sub-case. -/
def reRaiseFlag : DBError → Bool
  | .programmingTableNotFound => false
  | _ => true

/-- The `logging.error` message emitted for each classified case
(app/db_exceptions.py). -/
def handlerMessage (e : DBError) (context : String) : String :=
  match e with
  | .operational =>
      "Could not connect during " ++ context ++
      ". Check if the database exists and credentials are correct."
  | .programmingTableNotFound =>
      context ++ ": table not found. " ++
      "It looks like the database tables have not been created yet. " ++
      "Please run python scripts/create_tables.py."
  | .programmingOther =>
      "Permission error during " ++ context ++
      ". Database user may lack required privileges."
  | .integrity =>
      "Integrity error during " ++ context ++
      ". Possible duplicate keys or constraint violation."
  | .noSuchModule =>
      "Database driver not found during " ++ context ++
      ". Ensure the required driver is installed."
  | .otherSQLAlchemy =>
      "Unexpected SQLAlchemy error during " ++ context ++ "."
  | _ =>
      "Unknown error during " ++ context ++ "."

/-- How control leaves `handle_db_exception`. -/
inductive HandleOutcome where
  | exited (code : Nat)
  | reraised
  | returned
  deriving DecidableEq, Repr

/-- Embeds `handle_db_exception(e, context, exit_on_error)`
(app/db_exceptions.py:1-64): classifies and logs `e`; an unknown error
with `exit_on_error=False` is re-raised at once (line 56); otherwise
`sys.exit(1)` when `exit_on_error` and the case re-raises (line 62),
bare re-raise when only the case re-raises (line 64), and a normal
return for the table-not-found sub-case. -/
def handle_db_exception (e : DBError) (exit_on_error : Bool) : HandleOutcome :=
  if isUnknownError e && !exit_on_error then
    .reraised
  else if exit_on_error && reRaiseFlag e then
    .exited 1
  else if reRaiseFlag e then
    .reraised
  else
    .returned

/-- Observable session / logging events, used to relate the order of
rollback, logging and commit to the spec. -/
inductive Event where
  | rolledBack
  | committed
  | logError (msg : String)
  | logInfo (msg : String)
  deriving DecidableEq, Repr

/-- How control leaves `store_objects` / `fill_relationships`:
a normal `None` return, a `SystemExit` escaping from
`handle_db_exception`, or the original exception re-raised by the
trailing bare `raise`. -/
inductive StoreOutcome where
  | okNone
  | sysExit (code : Nat)
  | raised (e : DBError)
  deriving DecidableEq, Repr

/-- Holds when some persisted row matches the SQLAlchemy filter
`getattr(model_class, uf) == v` (a `None` probe compiles to IS NULL). -/
def keyPresent (persisted : List Row) (uf : String) (v : Val) : Bool :=
  persisted.any fun row => rowVal row uf = v

/-- Embeds `model_class(**{k: v for k, v in data.items() if hasattr(model_class, k)})`
(app/services/swapi_service.py:76): keep only valid attributes,
silently dropping unknown fields. -/
def projectRow (mc : ModelClass) (d : Record) : Row :=
  d.filter fun kv => kv.fst ∈ mc.attrs

/-- The staging loop of `store_objects`
(app/services/swapi_service.py:74-78): for each record in input order,
evaluate `getattr(model_class, unique_field)` (AttributeError when the
field is not an attribute), then `data[unique_field]` (KeyError when the
key is absent), query the persisted rows for that value, and stage the
projected row only when no persisted row matches.  Returns the staged
rows in order, or the first error raised. -/
def stageLoop (persisted : List Row) (mc : ModelClass) (uf : String) :
    List Record → Except DBError (List Row)
  | [] => .ok []
  | d :: rest =>
      if uf ∈ mc.attrs then
        match lookupField d uf with
        | none => .error .keyError
        | some v =>
            if keyPresent persisted uf v then
              stageLoop persisted mc uf rest
            else
              match stageLoop persisted mc uf rest with
              | .ok st => .ok (projectRow mc d :: st)
              | .error e => .error e
      else
        .error .attributeError

/-- The natural-key column values of a list of staged rows. -/
def stagedKeys (rows : List Row) (u : String) : List Val :=
  rows.map fun r => rowVal r u

/-- No two equal entries in a list of key values. -/
def allDistinct : List Val → Bool
  | [] => true
  | v :: rest => !rest.contains v && allDistinct rest

/-- The schema constraints checked when the flush hits the database
(`unique=True, nullable=False` on the natural-key column,
app/models.py): every staged natural key is non-NULL, distinct from the
other staged keys, and distinct from every persisted key. -/
def commitCheck (persisted staged : List Row) (u : String) : Bool :=
  (stagedKeys staged u).all (fun v => v.isSome) &&
  allDistinct (stagedKeys staged u) &&
  (stagedKeys staged u).all (fun v => !(stagedKeys persisted u).contains v)

/-- Embeds `logging.info(f"Stored {added_count}/{len(data_list)} {name}")`
(app/services/swapi_service.py:80). -/
def storedMsg (added total : Nat) (name : String) : String :=
  "Stored " ++ toString added ++ "/" ++ toString total ++ " " ++ name

/-- The `except` path shared by `store_objects` (lines 81-84) and
`fill_relationships` (lines 205-208): `db.rollback()`, then
`handle_db_exception(e, context)` with the default `exit_on_error=True`
(which can exit the process), then an unconditional bare `raise`. -/
def errorPath (sess : Session) (e : DBError) (context : String) :
    Session × StoreOutcome × List Event :=
  let outcome : StoreOutcome :=
    match handle_db_exception e true with
    | .exited c => .sysExit c
    | .reraised => .raised e
    | .returned => .raised e
  (⟨sess.persisted, []⟩, outcome, [.rolledBack, .logError (handlerMessage e context)])

/-- The `db.commit()` at the end of `store_objects`
(app/services/swapi_service.py:79): flush every staged row of the
session in one transaction, failing on an injected infrastructure
`fault` or on a schema-constraint violation, in which case the shared
error path runs. -/
def commitPhase (sess : Session) (mc : ModelClass) (dataLen : Nat)
    (newRows : List Row) (fault : Option DBError) :
    Session × StoreOutcome × List Event :=
  match fault with
  | some e => errorPath sess e ("storing " ++ mc.name)
  | none =>
      if commitCheck sess.persisted (sess.staged ++ newRows) mc.uniqueCol then
        (⟨sess.persisted ++ (sess.staged ++ newRows), []⟩, .okNone,
         [.committed, .logInfo (storedMsg newRows.length dataLen mc.name)])
      else
        errorPath sess .integrity ("storing " ++ mc.name)

/-- Embeds `store_objects(db, model_class, data_list, unique_field)`
(app/services/swapi_service.py:56-84): stage each new record, then
commit the whole session in one transaction; on any error during
staging or commit, roll back and run the shared error path.  `fault`
injects an infrastructure failure at commit time.  Python returns
`None` on success; the added count is only logged. -/
def store_objects (sess : Session) (mc : ModelClass) (data : List Record)
    (uf : String) (fault : Option DBError) :
    Session × StoreOutcome × List Event :=
  match stageLoop sess.persisted mc uf data with
  | .error e => errorPath sess e ("storing " ++ mc.name)
  | .ok newRows => commitPhase sess mc data.length newRows fault

-- -------------------- Remote Fetcher --------------------

/-- What one `requests.get` attempt produces: a transport failure or
malformed body (RequestException / JSONDecodeError), a JSON dict whose
values are taken by `list(data.values())`, or a JSON list returned
as is (app/services/swapi_service.py:39-45). -/
inductive AttemptOutcome where
  | failure
  | dictBody (vals : List Record)
  | listBody (items : List Record)

/-- What `fetch_from_swapi` produces: a list of items, a raised
`HTTPException(status_code=502)`, or the implicit Python `None` when the
loop body never runs. -/
inductive FetchResult where
  | items (xs : List Record)
  | httpError (status : Nat)
  | pyNone
  deriving DecidableEq, Repr

/-- The retry loop `for attempt in range(1, retries + 1)`
(app/services/swapi_service.py:37-54), with `fuel` iterations left and
`att i` the outcome of attempt `i`.  Returns the result, the number of
attempts made, and the list of performed `time.sleep` durations.  On a
non-final failed attempt the loop sleeps `delay` and retries; on the
final one it raises 502 when `fail_fast` and returns `[]` otherwise. -/
def fetchGo (att : Nat → AttemptOutcome) (delay : Nat) (fail_fast : Bool) :
    Nat → Nat → FetchResult × Nat × List Nat
  | _, 0 => (.pyNone, 0, [])
  | attempt, fuel + 1 =>
      match att attempt with
      | .dictBody vals => (.items vals, 1, [])
      | .listBody xs => (.items xs, 1, [])
      | .failure =>
          if fuel = 0 then
            if fail_fast then (.httpError 502, 1, []) else (.items [], 1, [])
          else
            let (r, k, sl) := fetchGo att delay fail_fast (attempt + 1) fuel
            (r, k + 1, delay :: sl)

/-- Embeds `fetch_from_swapi(endpoint, retries, delay, fail_fast)`
(app/services/swapi_service.py:15-54).  `retries` is an `int`;
`range(1, retries + 1)` runs `max 0 retries` iterations starting at
attempt 1, and a non-positive `retries` falls through the loop and
returns `None`. -/
def fetch_from_swapi (att : Nat → AttemptOutcome) (retries : Int)
    (delay : Nat) (fail_fast : Bool) : FetchResult × Nat × List Nat :=
  fetchGo att delay fail_fast 1 retries.toNat

-- -------------------- Relationship Filler --------------------

/-- The three association tables (app/models.py:6-25), with entities
identified by their position among the persisted rows of their kind. -/
structure LinkState where
  charFilm : List (Nat × Nat)
  charShip : List (Nat × Nat)
  filmShip : List (Nat × Nat)
  deriving DecidableEq, Repr

/-- Embeds `if b not in a.links: a.links.append(b)` for one pair
(app/services/swapi_service.py:194-202). -/
def addLink (cur : List (Nat × Nat)) (p : Nat × Nat) : List (Nat × Nat) :=
  if p ∈ cur then cur else cur ++ [p]

/-- All pairs `(a, b)` in the nested iteration order of the filler. -/
def allPairs : List Nat → List Nat → List (Nat × Nat)
  | [], _ => []
  | a :: as, bs => bs.map (fun b => (a, b)) ++ allPairs as bs

/-- Embeds `fill_relationships(db)` (app/services/swapi_service.py:177-208):
load all characters, films and starships, append every missing
character-film, character-starship and film-starship link, then commit
once; on failure (injected at commit through `fault`) roll back the
pending link insertions and run the shared error path. -/
def fill_relationships (cs fs ss : List Nat) (st : LinkState)
    (fault : Option DBError) : LinkState × StoreOutcome × List Event :=
  match fault with
  | some e =>
      (st, (errorPath ⟨[], []⟩ e "filling relationships").2.1,
       (errorPath ⟨[], []⟩ e "filling relationships").2.2)
  | none =>
      ({ charFilm := (allPairs cs fs).foldl addLink st.charFilm
         charShip := (allPairs cs ss).foldl addLink st.charShip
         filmShip := (allPairs fs ss).foldl addLink st.filmShip },
       .okNone, [.committed, .logInfo "Relationships filled successfully."])

-- -------------------- Per-kind projections --------------------

/-- Embeds `c.get(f)`: Python `dict.get` returns `None` for a missing key. -/
def dictGet (r : Record) (f : String) : Val :=
  match lookupField r f with
  | some v => v
  | none => none

/-- The record built by `store_characters`
(app/services/swapi_service.py:107-113). -/
def projectCharacter (c : Record) : Record :=
  [("name", dictGet c "name"), ("gender", dictGet c "gender"),
   ("birth_year", dictGet c "birth_year")]

/-- The record built by `store_films`
(app/services/swapi_service.py:137-143). -/
def projectFilm (f : Record) : Record :=
  [("title", dictGet f "title"), ("director", dictGet f "director"),
   ("release_date", dictGet f "release_date")]

/-- The record built by `store_starships`
(app/services/swapi_service.py:167-173). -/
def projectStarship (s : Record) : Record :=
  [("name", dictGet s "name"), ("model", dictGet s "model"),
   ("manufacturer", dictGet s "manufacturer")]

/-- Embeds `store_characters(db, characters_data)`
(app/services/swapi_service.py:96-114). -/
def store_characters (sess : Session) (data : List Record)
    (fault : Option DBError) : Session × StoreOutcome × List Event :=
  store_objects sess CharacterMC (data.map projectCharacter) "name" fault

/-- Embeds `store_films(db, films_data)` (app/services/swapi_service.py:126-144). -/
def store_films (sess : Session) (data : List Record)
    (fault : Option DBError) : Session × StoreOutcome × List Event :=
  store_objects sess FilmMC (data.map projectFilm) "title" fault

/-- Embeds `store_starships(db, starships_data)`
(app/services/swapi_service.py:156-174). -/
def store_starships (sess : Session) (data : List Record)
    (fault : Option DBError) : Session × StoreOutcome × List Event :=
  store_objects sess StarshipMC (data.map projectStarship) "name" fault

-- -------------------- Sync Orchestrator --------------------

/-- The whole database: one session-backed table per entity kind plus
the association tables. -/
structure Database where
  chars : Session
  films : Session
  ships : Session
  links : LinkState
  deriving DecidableEq, Repr

/-- Entity identifiers of the persisted rows of one kind, as used by the
filler (`db.query(...).all()`). -/
def idsOf (s : Session) : List Nat :=
  List.range s.persisted.length

/-- The external world and injected faults of one `sync_all` run: the
attempt oracle of each endpoint and the commit fault of each step. -/
structure SyncEnv where
  peopleAtt : Nat → AttemptOutcome
  filmsAtt : Nat → AttemptOutcome
  shipsAtt : Nat → AttemptOutcome
  charsFault : Option DBError
  filmsFault : Option DBError
  shipsFault : Option DBError
  fillFault : Option DBError

/-- How one `sync_all` invocation ends. -/
inductive SyncOutcome where
  | ok
  | fetchFailed (status : Nat)
  | storeSysExit (code : Nat)
  | storeRaised (e : DBError)
  deriving DecidableEq, Repr

/-- Lift a store/fill outcome to a sync outcome. -/
def liftStore : StoreOutcome → SyncOutcome
  | .okNone => .ok
  | .sysExit c => .storeSysExit c
  | .raised e => .storeRaised e

/-- Embeds `chars = fetch_characters(); store_characters(db, chars)`
(app/services/swapi_sync.py:30-31).  `fetch_characters` calls
`fetch_from_swapi("people")` with the defaults `retries=3, delay=2,
fail_fast=True`.  A `None` fetch result would make the projection loop
`for c in characters_data` raise TypeError. -/
def charsStep (env : SyncEnv) (db : Database) : Database × SyncOutcome :=
  match (fetch_from_swapi env.peopleAtt 3 2 true).1 with
  | .httpError s => (db, .fetchFailed s)
  | .pyNone => (db, .storeRaised .typeError)
  | .items xs =>
      let (sess, outcome, _) := store_characters db.chars xs env.charsFault
      ({ db with chars := sess }, liftStore outcome)

/-- Embeds `films = fetch_films(); store_films(db, films)`
(app/services/swapi_sync.py:33-34). -/
def filmsStep (env : SyncEnv) (db : Database) : Database × SyncOutcome :=
  match (fetch_from_swapi env.filmsAtt 3 2 true).1 with
  | .httpError s => (db, .fetchFailed s)
  | .pyNone => (db, .storeRaised .typeError)
  | .items xs =>
      let (sess, outcome, _) := store_films db.films xs env.filmsFault
      ({ db with films := sess }, liftStore outcome)

/-- Embeds `ships = fetch_starships(); store_starships(db, ships)`
(app/services/swapi_sync.py:36-37). -/
def shipsStep (env : SyncEnv) (db : Database) : Database × SyncOutcome :=
  match (fetch_from_swapi env.shipsAtt 3 2 true).1 with
  | .httpError s => (db, .fetchFailed s)
  | .pyNone => (db, .storeRaised .typeError)
  | .items xs =>
      let (sess, outcome, _) := store_starships db.ships xs env.shipsFault
      ({ db with ships := sess }, liftStore outcome)

/-- Embeds `fill_relationships(db)` (app/services/swapi_sync.py:40). -/
def fillStep (env : SyncEnv) (db : Database) : Database × SyncOutcome :=
  let (links, outcome, _) :=
    fill_relationships (idsOf db.chars) (idsOf db.films) (idsOf db.ships)
      db.links env.fillFault
  ({ db with links := links }, liftStore outcome)

/-- Embeds `sync_all(db)` (app/services/swapi_sync.py:8-40): fetch and store
characters, then films, then starships, then fill relationships; an
exception in any step propagates and aborts the remaining steps. -/
def sync_all (env : SyncEnv) (db : Database) : Database × SyncOutcome :=
  match charsStep env db with
  | (db1, .ok) =>
      match filmsStep env db1 with
      | (db2, .ok) =>
          match shipsStep env db2 with
          | (db3, .ok) => fillStep env db3
          | r => r
      | r => r
  | r => r

-- -------------------- Route: sync_characters --------------------

/-- What a `/swapi/sync/characters` request returns. -/
inductive RouteResult where
  | msg (s : String)
  | httpErr (status : Nat)
  | sysExit (code : Nat)
  | raised (e : DBError)
  deriving DecidableEq, Repr

/-- The success message of the characters sync route
(app/routes/swapi_routes.py:79). -/
def syncedMsg (n : Nat) : String :=
  toString n ++ " characters synced successfully"

/-- How the characters sync route turns the store call result into a
response: a success message built from the number of fetched records
`n` (app/routes/swapi_routes.py:79), or the propagated failure. -/
def syncCharsResult (db : Database) (res : Session × StoreOutcome × List Event)
    (n : Nat) : Database × RouteResult :=
  match res with
  | (sess, .okNone, _) => ({ db with chars := sess }, .msg (syncedMsg n))
  | (sess, .sysExit c, _) => ({ db with chars := sess }, .sysExit c)
  | (sess, .raised e, _) => ({ db with chars := sess }, .raised e)

/-- Embeds `sync_characters(db)` (app/routes/swapi_routes.py:66-79): fetch
characters; when none were found answer with an informational message,
otherwise store them and answer with the length of the fetched list. -/
def sync_characters (att : Nat → AttemptOutcome) (db : Database)
    (fault : Option DBError) : Database × RouteResult :=
  match (fetch_from_swapi att 3 2 true).1 with
  | .httpError s => (db, .httpErr s)
  | .pyNone => (db, .msg "No characters found to sync")
  | .items [] => (db, .msg "No characters found to sync")
  | .items xs => syncCharsResult db (store_characters db.chars xs fault) xs.length

-- -------------------- Derived predicates and fixtures --------------------

/-- Holds when the staging loop skips record `d`: its unique-field value
is carried by some already-persisted row. -/
def dupSkip (p : List Row) (uf : String) (d : Record) : Bool :=
  match lookupField d uf with
  | some v => keyPresent p uf v
  | none => false

/-- A raw character record as fetched from the remote source. -/
def lukeRec : Record :=
  [("name", some "Luke"), ("gender", some "male"), ("birth_year", some "19BBY")]

/-- A second raw character record. -/
def leiaRec : Record :=
  [("name", some "Leia"), ("gender", some "female"), ("birth_year", some "19BBY")]

/-- A database that already holds one character row named Luke. -/
def dbWithLuke : Database :=
  ⟨⟨[[("name", some "Luke")]], []⟩, ⟨[], []⟩, ⟨[], []⟩, ⟨[], [], []⟩⟩

/-- A database with no rows at all. -/
def emptyDB : Database :=
  ⟨⟨[], []⟩, ⟨[], []⟩, ⟨[], []⟩, ⟨[], [], []⟩⟩

/-- An attempt oracle whose first attempt succeeds with two characters. -/
def attLukeLeia : Nat → AttemptOutcome :=
  fun _ => .listBody [lukeRec, leiaRec]

/-- A sync environment where the people endpoint answers an empty list
and the films and starships endpoints fail on every attempt. -/
def envFilmsFail : SyncEnv :=
  ⟨fun _ => .listBody [], fun _ => .failure, fun _ => .failure,
   none, none, none, none⟩

/-- The character session after storing Luke and Leia over a store that
already held Luke: only Leia is newly persisted. -/
def sessLukeLeia : Session :=
  ⟨[[("name", some "Luke")],
    [("name", some "Leia"), ("gender", some "female"),
     ("birth_year", some "19BBY")]], []⟩

-- -------------------- Helper lemmas --------------------

theorem errorPath_eq (sess : Session) (e : DBError) (ctx : String) :
    errorPath sess e ctx =
      (⟨sess.persisted, []⟩,
       (if e = .programmingTableNotFound then .raised e else .sysExit 1),
       [.rolledBack, .logError (handlerMessage e ctx)]) := by
  cases e <;> rfl

theorem errorPath_not_ok (sess : Session) (e : DBError) (ctx : String) :
    (errorPath sess e ctx).2.1 ≠ .okNone := by
  rw [errorPath_eq]
  split <;> simp

theorem fetchGo_all_fail (att : Nat → AttemptOutcome) (delay : Nat)
    (fail_fast : Bool) (hatt : ∀ i, att i = .failure) :
    ∀ fuel attempt,
      fetchGo att delay fail_fast attempt (fuel + 1) =
        ((if fail_fast then FetchResult.httpError 502 else .items []),
         fuel + 1, List.replicate fuel delay) := by
  intro fuel
  induction fuel with
  | zero =>
      intro attempt
      cases fail_fast <;> simp [fetchGo, hatt attempt]
  | succ m ih =>
      intro attempt
      rw [show m + 1 + 1 = (m + 1) + 1 from rfl]
      unfold fetchGo
      rw [hatt attempt]
      simp [ih (attempt + 1), List.replicate_succ]

/-- C5: against a source that fails every attempt, the Fetcher with
`retries = r ≥ 1` makes exactly `r` attempts with a constant sleep of
`delay` between consecutive attempts, then raises a 502 HTTPException
when `fail_fast` is true and returns the empty list when it is false. -/
theorem fetch_retry_exhaustion (att : Nat → AttemptOutcome) (r : Int)
    (d : Nat) (fail_fast : Bool)
    (hatt : ∀ i, att i = .failure) (hr : 1 ≤ r) :
    fetch_from_swapi att r d fail_fast =
      ((if fail_fast then FetchResult.httpError 502 else .items []),
       r.toNat, List.replicate (r.toNat - 1) d) := by
  obtain ⟨m, hm⟩ : ∃ m, r.toNat = m + 1 := ⟨r.toNat - 1, by omega⟩
  unfold fetch_from_swapi
  rw [hm]
  simpa using fetchGo_all_fail att d fail_fast hatt m 1

theorem fetch_retry_exhaustion_witness :
    fetch_from_swapi (fun _ => AttemptOutcome.failure) 3 2 true =
      (FetchResult.httpError 502, 3, [2, 2]) := by
  have h := fetch_retry_exhaustion (fun _ => AttemptOutcome.failure) 3 2 true
    (fun _ => rfl) (by decide)
  simpa using h

/-- C10: with `retries ≤ 0` the retry loop body never runs and
`fetch_from_swapi` returns Python `None` after zero attempts — neither a
list of records nor a raised error. -/
theorem fetch_nonpositive_retries_returns_none (att : Nat → AttemptOutcome)
    (r : Int) (d : Nat) (fail_fast : Bool) (hr : r ≤ 0) :
    fetch_from_swapi att r d fail_fast = (.pyNone, 0, []) := by
  unfold fetch_from_swapi
  have h0 : r.toNat = 0 := by omega
  rw [h0]
  rfl

theorem fetch_nonpositive_retries_returns_none_witness :
    fetch_from_swapi (fun _ => AttemptOutcome.failure) (-2) 2 true =
      (.pyNone, 0, []) :=
  fetch_nonpositive_retries_returns_none (fun _ => AttemptOutcome.failure)
    (-2) 2 true (by decide)

theorem classifiedOutcome_ne_ok (e : DBError) :
    (if e = DBError.programmingTableNotFound then StoreOutcome.raised e
     else StoreOutcome.sysExit 1) ≠ .okNone := by
  split <;> simp

theorem store_objects_spec (sess : Session) (mc : ModelClass)
    (data : List Record) (uf : String) (fault : Option DBError) :
    (∃ st, stageLoop sess.persisted mc uf data = .ok st ∧ fault = none ∧
       commitCheck sess.persisted (sess.staged ++ st) mc.uniqueCol = true ∧
       store_objects sess mc data uf fault =
         (⟨sess.persisted ++ (sess.staged ++ st), []⟩, .okNone,
          [.committed, .logInfo (storedMsg st.length data.length mc.name)])) ∨
    (∃ e, store_objects sess mc data uf fault =
       (⟨sess.persisted, []⟩,
        (if e = DBError.programmingTableNotFound then .raised e else .sysExit 1),
        [.rolledBack, .logError (handlerMessage e ("storing " ++ mc.name))])) := by
  rcases hs : stageLoop sess.persisted mc uf data with e | st
  · refine .inr ⟨e, ?_⟩
    have he : store_objects sess mc data uf fault =
        errorPath sess e ("storing " ++ mc.name) := by
      unfold store_objects
      rw [hs]
    rw [he]
    exact errorPath_eq sess e ("storing " ++ mc.name)
  · have he : store_objects sess mc data uf fault =
        commitPhase sess mc data.length st fault := by
      unfold store_objects
      rw [hs]
    cases fault with
    | some e =>
        refine .inr ⟨e, ?_⟩
        rw [he]
        exact errorPath_eq sess e ("storing " ++ mc.name)
    | none =>
        by_cases hc : commitCheck sess.persisted (sess.staged ++ st) mc.uniqueCol = true
        · refine .inl ⟨st, rfl, rfl, hc, ?_⟩
          rw [he]
          unfold commitPhase
          rw [if_pos hc]
        · refine .inr ⟨.integrity, ?_⟩
          have h2 : commitPhase sess mc data.length st none =
              errorPath sess .integrity ("storing " ++ mc.name) := by
            unfold commitPhase
            rw [if_neg hc]
          rw [he, h2]
          exact errorPath_eq sess .integrity ("storing " ++ mc.name)

/-- C3: the Upsert Store is all-or-nothing per call: on success it
commits every staged row in the single end-of-batch transaction, and on
any failure during staging or commit the whole batch is rolled back and
the persisted store state is exactly what it was before the call. -/
theorem store_objects_all_or_nothing (sess : Session) (mc : ModelClass)
    (data : List Record) (uf : String) (fault : Option DBError)
    (h : sess.staged = []) :
    ((store_objects sess mc data uf fault).2.1 = .okNone →
      ∃ st, stageLoop sess.persisted mc uf data = .ok st ∧
        (store_objects sess mc data uf fault).1 = ⟨sess.persisted ++ st, []⟩) ∧
    ((store_objects sess mc data uf fault).2.1 ≠ .okNone →
      (store_objects sess mc data uf fault).1 = ⟨sess.persisted, []⟩) := by
  rcases store_objects_spec sess mc data uf fault with ⟨st, hs, _, _, he⟩ | ⟨e, he⟩
  · rw [he]
    exact ⟨fun _ => ⟨st, hs, by rw [h]; rfl⟩, fun hne => absurd rfl hne⟩
  · rw [he]
    exact ⟨fun hok => absurd hok (classifiedOutcome_ne_ok e), fun _ => rfl⟩

theorem store_objects_all_or_nothing_witness :
    (store_objects ⟨[], []⟩ CharacterMC [lukeRec] "name"
        (some DBError.operational)).2.1 ≠ .okNone ∧
    (store_objects ⟨[], []⟩ CharacterMC [lukeRec] "name"
        (some DBError.operational)).1 = ⟨[], []⟩ :=
  ⟨by decide,
   (store_objects_all_or_nothing ⟨[], []⟩ CharacterMC [lukeRec] "name"
      (some DBError.operational) rfl).2 (by decide)⟩

/-- C4 counterexample: the claim says the SchemaError table-not-found
sub-case is swallowed (not re-raised) and every other error is re-raised
to the caller.  On the code, a table-not-found error hitting
`store_objects` is re-raised to the caller by the unconditional bare
`raise` at app/services/swapi_service.py:84 (only `handle_db_exception`
itself returns without raising), while an OperationalError makes
`handle_db_exception` call `sys.exit(1)`, so a SystemExit — not the
original error — propagates. -/
theorem store_table_not_found_reraised_cex :
    (store_objects ⟨[], []⟩ CharacterMC [lukeRec] "name"
        (some DBError.programmingTableNotFound)).2.1 =
      StoreOutcome.raised DBError.programmingTableNotFound ∧
    (store_objects ⟨[], []⟩ CharacterMC [lukeRec] "name"
        (some DBError.operational)).2.1 = StoreOutcome.sysExit 1 :=
  ⟨rfl, rfl⟩

/-- C4 (amended): for every error raised inside the Upsert Store or the
Relationship Filler, the transaction is rolled back before the error is
classified and logged; afterwards the table-not-found SchemaError
sub-case is re-raised to the caller by the unconditional bare `raise`
(only `handle_db_exception` itself swallows it), and every other
classified error terminates via `sys.exit(1)` — a SystemExit propagates
instead of the original error. -/
theorem store_fill_error_path_behavior :
    (∀ (sess : Session) (mc : ModelClass) (data : List Record) (uf : String)
        (fault : Option DBError),
      (store_objects sess mc data uf fault).2.1 ≠ .okNone →
      ∃ e, store_objects sess mc data uf fault =
        (⟨sess.persisted, []⟩,
         (if e = DBError.programmingTableNotFound then .raised e else .sysExit 1),
         [.rolledBack, .logError (handlerMessage e ("storing " ++ mc.name))])) ∧
    (∀ (cs fs ss : List Nat) (st : LinkState) (fault : Option DBError),
      (fill_relationships cs fs ss st fault).2.1 ≠ .okNone →
      ∃ e, fill_relationships cs fs ss st fault =
        (st,
         (if e = DBError.programmingTableNotFound then .raised e else .sysExit 1),
         [.rolledBack, .logError (handlerMessage e "filling relationships")])) := by
  constructor
  · intro sess mc data uf fault hne
    rcases store_objects_spec sess mc data uf fault with ⟨st, _, _, _, he⟩ | ⟨e, he⟩
    · rw [he] at hne
      exact absurd rfl hne
    · exact ⟨e, he⟩
  · intro cs fs ss st fault hne
    cases fault with
    | some e =>
        refine ⟨e, ?_⟩
        show (st, (errorPath ⟨[], []⟩ e "filling relationships").2.1,
              (errorPath ⟨[], []⟩ e "filling relationships").2.2) = _
        rw [errorPath_eq]
    | none => exact absurd rfl hne

theorem store_fill_error_path_behavior_witness :
    (store_objects ⟨[], []⟩ CharacterMC [lukeRec] "name"
        (some DBError.noSuchModule)).2.1 ≠ .okNone ∧
    ∃ e, store_objects ⟨[], []⟩ CharacterMC [lukeRec] "name"
        (some DBError.noSuchModule) =
      (⟨[], []⟩,
       (if e = DBError.programmingTableNotFound then .raised e else .sysExit 1),
       [.rolledBack,
        .logError (handlerMessage e ("storing " ++ CharacterMC.name))]) :=
  ⟨by decide,
   store_fill_error_path_behavior.1 ⟨[], []⟩ CharacterMC [lukeRec] "name"
     (some DBError.noSuchModule) (by decide)⟩

theorem lookupField_projectRow (mc : ModelClass) (uf : String) (d : Record)
    (h : uf ∈ mc.attrs) :
    lookupField (projectRow mc d) uf = lookupField d uf := by
  induction d with
  | nil => rfl
  | cons kv rest ih =>
      obtain ⟨k, v⟩ := kv
      by_cases hk : k = uf
      · subst hk
        simp [projectRow, lookupField, List.filter_cons, h]
      · by_cases hka : k ∈ mc.attrs
        · simpa [projectRow, lookupField, List.filter_cons, hk, hka] using ih
        · simpa [projectRow, lookupField, List.filter_cons, hk, hka] using ih

theorem rowVal_projectRow (mc : ModelClass) (uf : String) (d : Record)
    (h : uf ∈ mc.attrs) :
    rowVal (projectRow mc d) uf = rowVal d uf := by
  unfold rowVal
  rw [lookupField_projectRow mc uf d h]

/-- C9: the duplicate check consults only rows persisted before the
call (the session does not autoflush staged rows), so a batch holding
the same record twice under a fresh natural key stages both copies as
new rows, and the call then fails on the schema-level unique constraint
at commit — the at-most-once-per-key invariant inside one batch is
upheld only by that constraint, not by the skip-on-duplicate check. -/
theorem duplicate_batch_staged_both (sess : Session) (mc : ModelClass)
    (uf : String) (r : Record) (v : Val)
    (hstaged : sess.staged = [])
    (hattr : uf ∈ mc.attrs)
    (hcol : mc.uniqueCol = uf)
    (hv : lookupField r uf = some v)
    (habsent : keyPresent sess.persisted uf v = false) :
    stageLoop sess.persisted mc uf [r, r] =
      .ok [projectRow mc r, projectRow mc r] ∧
    store_objects sess mc [r, r] uf none =
      (⟨sess.persisted, []⟩, .sysExit 1,
       [.rolledBack,
        .logError (handlerMessage .integrity ("storing " ++ mc.name))]) := by
  have hstage : stageLoop sess.persisted mc uf [r, r] =
      .ok [projectRow mc r, projectRow mc r] := by
    simp [stageLoop, hattr, hv, habsent]
  refine ⟨hstage, ?_⟩
  have he : store_objects sess mc [r, r] uf none =
      commitPhase sess mc 2 [projectRow mc r, projectRow mc r] none := by
    unfold store_objects
    rw [hstage]
    rfl
  have hkey : rowVal (projectRow mc r) uf = v := by
    rw [rowVal_projectRow mc uf r hattr]
    unfold rowVal
    rw [hv]
  have hcc : commitCheck sess.persisted
      (sess.staged ++ [projectRow mc r, projectRow mc r]) mc.uniqueCol = false := by
    rw [hstaged, hcol]
    cases v with
    | none => simp [commitCheck, stagedKeys, allDistinct, hkey]
    | some s => simp [commitCheck, stagedKeys, allDistinct, hkey]
  have h2 : commitPhase sess mc 2 [projectRow mc r, projectRow mc r] none =
      errorPath sess .integrity ("storing " ++ mc.name) := by
    unfold commitPhase
    rw [if_neg (by simp [hcc])]
  rw [he, h2, errorPath_eq]
  rfl

theorem duplicate_batch_staged_both_witness :
    stageLoop [] CharacterMC "name" [lukeRec, lukeRec] =
      .ok [projectRow CharacterMC lukeRec, projectRow CharacterMC lukeRec] ∧
    store_objects ⟨[], []⟩ CharacterMC [lukeRec, lukeRec] "name" none =
      (⟨[], []⟩, .sysExit 1,
       [.rolledBack,
        .logError (handlerMessage .integrity ("storing " ++ CharacterMC.name))]) :=
  duplicate_batch_staged_both ⟨[], []⟩ CharacterMC "name" lukeRec (some "Luke")
    rfl (by decide) rfl (by decide) (by decide)

theorem stageLoop_filter (p : List Row) (mc : ModelClass) (uf : String)
    (hattr : uf ∈ mc.attrs) :
    ∀ data : List Record, (∀ d ∈ data, (lookupField d uf).isSome = true) →
      stageLoop p mc uf data =
        .ok ((data.filter fun d => !dupSkip p uf d).map (projectRow mc)) := by
  intro data
  induction data with
  | nil => intro _; rfl
  | cons d rest ih =>
      intro hkeys
      obtain ⟨v, hv⟩ :=
        Option.isSome_iff_exists.mp (hkeys d (List.mem_cons_self d rest))
      have hrest := ih fun d' hd' => hkeys d' (List.mem_cons_of_mem d hd')
      by_cases hp : keyPresent p uf v = true
      · simp [stageLoop, hattr, hv, hp, hrest, List.filter_cons, dupSkip]
      · simp [stageLoop, hattr, hv, hp, hrest, List.filter_cons, dupSkip]

/-- C7: the Upsert Store processes records in input order; a record
whose unique-field value matches no persisted row is staged as a new
row holding only the valid attributes of the entity kind (unknown
fields silently dropped), and a record whose value matches a persisted
row is skipped entirely — on success the persisted rows are exactly the
old rows (unmodified, no merge or update) followed by the staged
projections of the non-duplicate records in input order. -/
theorem store_objects_per_record_policy (p : List Row) (mc : ModelClass)
    (uf : String) (data : List Record)
    (hattr : uf ∈ mc.attrs)
    (hkeys : ∀ d ∈ data, (lookupField d uf).isSome = true) :
    stageLoop p mc uf data =
      .ok ((data.filter fun d => !dupSkip p uf d).map (projectRow mc)) ∧
    ((store_objects ⟨p, []⟩ mc data uf none).2.1 = .okNone →
      (store_objects ⟨p, []⟩ mc data uf none).1.persisted =
        p ++ (data.filter fun d => !dupSkip p uf d).map (projectRow mc)) := by
  have hstage := stageLoop_filter p mc uf hattr data hkeys
  refine ⟨hstage, fun hok => ?_⟩
  rcases store_objects_spec ⟨p, []⟩ mc data uf none with ⟨st, hs, _, _, he⟩ | ⟨e, he⟩
  · have hst : st = (data.filter fun d => !dupSkip p uf d).map (projectRow mc) := by
      injection hs.symm.trans hstage
    rw [he, hst]
    rfl
  · rw [he] at hok
    exact absurd hok (classifiedOutcome_ne_ok e)

theorem store_objects_per_record_policy_witness :
    stageLoop [[("name", some "Luke")]] CharacterMC "name" [lukeRec, leiaRec] =
      .ok (([lukeRec, leiaRec].filter
          fun d => !dupSkip [[("name", some "Luke")]] "name" d).map
        (projectRow CharacterMC)) ∧
    ((store_objects ⟨[[("name", some "Luke")]], []⟩ CharacterMC
        [lukeRec, leiaRec] "name" none).2.1 = .okNone →
      (store_objects ⟨[[("name", some "Luke")]], []⟩ CharacterMC
          [lukeRec, leiaRec] "name" none).1.persisted =
        [[("name", some "Luke")]] ++
          (([lukeRec, leiaRec].filter
              fun d => !dupSkip [[("name", some "Luke")]] "name" d).map
            (projectRow CharacterMC))) :=
  store_objects_per_record_policy [[("name", some "Luke")]] CharacterMC "name"
    [lukeRec, leiaRec] (by decide) (by decide)

theorem stageLoop_ok_attrs (p : List Row) (mc : ModelClass) (uf : String)
    (d : Record) (rest : List Record) (st : List Row)
    (h : stageLoop p mc uf (d :: rest) = .ok st) : uf ∈ mc.attrs := by
  by_contra hn
  simp [stageLoop, hn] at h

theorem stageLoop_cons_found (p : List Row) (mc : ModelClass) (uf : String)
    (d : Record) (rest : List Record) (v : Val)
    (hattr : uf ∈ mc.attrs) (hl : lookupField d uf = some v)
    (hp : keyPresent p uf v = true) :
    stageLoop p mc uf (d :: rest) = stageLoop p mc uf rest := by
  simp [stageLoop, hattr, hl, hp]

theorem stageLoop_cons_new (p : List Row) (mc : ModelClass) (uf : String)
    (d : Record) (rest : List Record) (v : Val)
    (hattr : uf ∈ mc.attrs) (hl : lookupField d uf = some v)
    (hp : keyPresent p uf v = false) :
    stageLoop p mc uf (d :: rest) =
      match stageLoop p mc uf rest with
      | .ok st => .ok (projectRow mc d :: st)
      | .error e => .error e := by
  simp [stageLoop, hattr, hl, hp]

theorem stageLoop_ok_keys (p : List Row) (mc : ModelClass) (uf : String) :
    ∀ (data : List Record) (st : List Row),
      stageLoop p mc uf data = .ok st →
      ∀ d ∈ data, (lookupField d uf).isSome = true := by
  intro data
  induction data with
  | nil =>
      intro st _ d hd
      exact absurd hd (List.not_mem_nil d)
  | cons d0 rest ih =>
      intro st h d hd
      have hattr : uf ∈ mc.attrs := stageLoop_ok_attrs p mc uf d0 rest st h
      cases hl : lookupField d0 uf with
      | none => simp [stageLoop, hattr, hl] at h
      | some v =>
          rcases List.mem_cons.mp hd with rfl | hdr
          · simp [hl]
          · by_cases hp : keyPresent p uf v = true
            · rw [stageLoop_cons_found p mc uf d0 rest v hattr hl hp] at h
              exact ih st h d hdr
            · rw [stageLoop_cons_new p mc uf d0 rest v hattr hl
                (Bool.eq_false_iff.mpr hp)] at h
              cases hr : stageLoop p mc uf rest with
              | error e => simp [hr] at h
              | ok st' => exact ih st' hr d hdr

theorem keyPresent_append (p q : List Row) (uf : String) (v : Val) :
    keyPresent (p ++ q) uf v = (keyPresent p uf v || keyPresent q uf v) := by
  simp [keyPresent, List.any_append]

theorem keyPresent_of_mem (p : List Row) (uf : String) (row : Row)
    (hm : row ∈ p) : keyPresent p uf (rowVal row uf) = true := by
  simp only [keyPresent, List.any_eq_true]
  exact ⟨row, hm, by simp⟩

theorem rowVal_of_lookup (d : Record) (uf : String) (v : Val)
    (hl : lookupField d uf = some v) : rowVal d uf = v := by
  unfold rowVal
  rw [hl]

theorem commitPhase_empty (sess : Session) (mc : ModelClass) (n : Nat)
    (h : sess.staged = []) :
    commitPhase sess mc n [] none =
      (⟨sess.persisted, []⟩, .okNone,
       [.committed, .logInfo (storedMsg 0 n mc.name)]) := by
  obtain ⟨p, stg⟩ := sess
  simp only at h
  subst h
  have hcc : commitCheck p ([] ++ []) mc.uniqueCol = true := rfl
  unfold commitPhase
  rw [if_pos hcc]
  simp

/-- C2: the Upsert Store is idempotent: running the same store call
twice in succession leaves exactly the same session state as running it
once, and when the first run succeeded the second run stages nothing and
logs that zero of the input records were newly added. -/
theorem store_objects_idempotent (sess : Session) (mc : ModelClass)
    (data : List Record) (uf : String) (h : sess.staged = []) :
    (store_objects (store_objects sess mc data uf none).1 mc data uf none).1 =
      (store_objects sess mc data uf none).1 ∧
    ((store_objects sess mc data uf none).2.1 = .okNone →
      (store_objects (store_objects sess mc data uf none).1 mc data uf none).2 =
        (.okNone,
         [.committed, .logInfo (storedMsg 0 data.length mc.name)])) := by
  obtain ⟨p, stg⟩ := sess
  simp only at h
  subst h
  rcases store_objects_spec ⟨p, []⟩ mc data uf none with ⟨st, hs, _, hc, he⟩ | ⟨e, he⟩
  · simp only [List.nil_append] at he hs
    have hkeys := stageLoop_ok_keys p mc uf data st hs
    have hstage2 : stageLoop (p ++ st) mc uf data = .ok [] := by
      cases data with
      | nil => rfl
      | cons d0 rest =>
          have hattr : uf ∈ mc.attrs :=
            stageLoop_ok_attrs p mc uf d0 rest st hs
          have hfil := stageLoop_filter p mc uf hattr (d0 :: rest) hkeys
          have hst : st =
              ((d0 :: rest).filter fun d => !dupSkip p uf d).map
                (projectRow mc) := by
            injection hs.symm.trans hfil
          rw [stageLoop_filter (p ++ st) mc uf hattr (d0 :: rest) hkeys]
          have hall : ∀ d ∈ d0 :: rest, dupSkip (p ++ st) uf d = true := by
            intro d hd
            obtain ⟨v, hv⟩ := Option.isSome_iff_exists.mp (hkeys d hd)
            have hgoal : keyPresent (p ++ st) uf v = true := by
              rw [keyPresent_append]
              by_cases hp : keyPresent p uf v = true
              · rw [hp]
                rfl
              · have hmem : projectRow mc d ∈ st := by
                  rw [hst]
                  refine List.mem_map_of_mem (projectRow mc) ?_
                  rw [List.mem_filter]
                  exact ⟨hd, by simp [dupSkip, hv, hp]⟩
                have hkp := keyPresent_of_mem st uf (projectRow mc d) hmem
                rw [rowVal_projectRow mc uf d hattr,
                  rowVal_of_lookup d uf v hv] at hkp
                rw [hkp]
                simp
            simp [dupSkip, hv, hgoal]
          have hnil : ((d0 :: rest).filter
              fun d => !dupSkip (p ++ st) uf d) = [] := by
            rw [List.filter_eq_nil_iff]
            intro d hd
            simp [hall d hd]
          rw [hnil]
          rfl
    have he2 : store_objects ⟨p ++ st, []⟩ mc data uf none =
        (⟨p ++ st, []⟩, .okNone,
         [.committed, .logInfo (storedMsg 0 data.length mc.name)]) := by
      have hmid : store_objects ⟨p ++ st, []⟩ mc data uf none =
          commitPhase ⟨p ++ st, []⟩ mc data.length [] none := by
        unfold store_objects
        rw [hstage2]
      rw [hmid, commitPhase_empty ⟨p ++ st, []⟩ mc data.length rfl]
    refine ⟨?_, fun _ => ?_⟩
    · simp only [he, he2]
    · simp only [he, he2]
  · have hsess1 : (store_objects ⟨p, []⟩ mc data uf none).1 = ⟨p, []⟩ := by
      rw [he]
    refine ⟨?_, fun hok => ?_⟩
    · rw [hsess1]
      exact hsess1
    · rw [he] at hok
      exact absurd hok (classifiedOutcome_ne_ok e)

theorem store_objects_idempotent_witness :
    (store_objects (store_objects ⟨[], []⟩ CharacterMC [lukeRec, leiaRec]
        "name" none).1 CharacterMC [lukeRec, leiaRec] "name" none).1 =
      (store_objects ⟨[], []⟩ CharacterMC [lukeRec, leiaRec] "name" none).1 ∧
    (store_objects (store_objects ⟨[], []⟩ CharacterMC [lukeRec, leiaRec]
        "name" none).1 CharacterMC [lukeRec, leiaRec] "name" none).2 =
      (.okNone, [.committed, .logInfo (storedMsg 0 2 CharacterMC.name)]) :=
  ⟨(store_objects_idempotent ⟨[], []⟩ CharacterMC [lukeRec, leiaRec] "name" rfl).1,
   (store_objects_idempotent ⟨[], []⟩ CharacterMC [lukeRec, leiaRec] "name" rfl).2
     (by decide)⟩

theorem foldl_addLink_of_subset (l : List (Nat × Nat)) :
    ∀ cur, (∀ x ∈ l, x ∈ cur) → l.foldl addLink cur = cur := by
  induction l with
  | nil => intro cur _; rfl
  | cons a l ih =>
      intro cur hsub
      have ha : addLink cur a = cur := by
        simp [addLink, hsub a (List.mem_cons_self a l)]
      rw [List.foldl_cons, ha]
      exact ih cur fun x hx => hsub x (List.mem_cons_of_mem a hx)

theorem foldl_addLink_of_fresh (l : List (Nat × Nat)) :
    ∀ cur, l.Nodup → (∀ x ∈ l, x ∉ cur) → l.foldl addLink cur = cur ++ l := by
  induction l with
  | nil => intro cur _ _; simp
  | cons a l ih =>
      intro cur hnd hf
      have ha : addLink cur a = cur ++ [a] := by
        simp [addLink, hf a (List.mem_cons_self a l)]
      rw [List.foldl_cons, ha,
        ih (cur ++ [a]) (List.nodup_cons.mp hnd).2 ?_]
      · simp
      · intro x hx
        rw [List.mem_append]
        rintro (hc | he)
        · exact hf x (List.mem_cons_of_mem a hx) hc
        · rw [List.mem_singleton] at he
          exact (List.nodup_cons.mp hnd).1 (he ▸ hx)

theorem mem_allPairs (as bs : List Nat) (x : Nat × Nat) :
    x ∈ allPairs as bs ↔ x.1 ∈ as ∧ x.2 ∈ bs := by
  induction as with
  | nil => simp [allPairs]
  | cons a as ih =>
      obtain ⟨x1, x2⟩ := x
      simp only [allPairs, List.mem_append, List.mem_map, List.mem_cons,
        Prod.mk.injEq] at ih ⊢
      constructor
      · rintro (⟨b, hb, rfl, rfl⟩ | hm)
        · exact ⟨.inl rfl, hb⟩
        · obtain ⟨h1, h2⟩ := ih.mp hm
          exact ⟨.inr h1, h2⟩
      · rintro ⟨rfl | h1, h2⟩
        · exact .inl ⟨x2, h2, rfl, rfl⟩
        · exact .inr (ih.mpr ⟨h1, h2⟩)

theorem allPairs_length (as bs : List Nat) :
    (allPairs as bs).length = as.length * bs.length := by
  induction as with
  | nil => simp [allPairs]
  | cons a as ih =>
      simp [allPairs, ih, Nat.succ_mul, Nat.add_comm]

theorem allPairs_nodup (as bs : List Nat) (ha : as.Nodup) (hb : bs.Nodup) :
    (allPairs as bs).Nodup := by
  induction as with
  | nil => simp [allPairs]
  | cons a as ih =>
      rw [show allPairs (a :: as) bs =
        bs.map (fun b => (a, b)) ++ allPairs as bs from rfl]
      refine List.Nodup.append ?_ (ih (List.nodup_cons.mp ha).2) ?_
      · exact hb.map fun b1 b2 hb12 => by
          simpa using congrArg Prod.snd hb12
      · intro x hx1 hx2
        obtain ⟨b, _, rfl⟩ := List.mem_map.mp hx1
        have := (mem_allPairs as bs (a, b)).mp hx2
        exact (List.nodup_cons.mp ha).1 this.1

/-- C1: on a store holding `C` characters, `F` films and `S` starships
and zero existing links, one successful Relationship Filler pass builds
exactly the full cross products — `C*F` character-film links, `C*S`
character-starship links and `F*S` film-starship links, linking every
character to every film and starship and every film to every starship —
and a second pass on the resulting state creates zero additional
links. -/
theorem fill_relationships_cross_product_closure (cs fs ss : List Nat)
    (hc : cs.Nodup) (hf : fs.Nodup) (hs : ss.Nodup) :
    (fill_relationships cs fs ss ⟨[], [], []⟩ none).1 =
      ⟨allPairs cs fs, allPairs cs ss, allPairs fs ss⟩ ∧
    (fill_relationships cs fs ss ⟨[], [], []⟩ none).2 =
      (.okNone, [.committed, .logInfo "Relationships filled successfully."]) ∧
    (allPairs cs fs).length = cs.length * fs.length ∧
    (allPairs cs ss).length = cs.length * ss.length ∧
    (allPairs fs ss).length = fs.length * ss.length ∧
    (∀ c ∈ cs, ∀ f ∈ fs, (c, f) ∈ allPairs cs fs) ∧
    (∀ c ∈ cs, ∀ s ∈ ss, (c, s) ∈ allPairs cs ss) ∧
    (∀ f ∈ fs, ∀ s ∈ ss, (f, s) ∈ allPairs fs ss) ∧
    fill_relationships cs fs ss
        (fill_relationships cs fs ss ⟨[], [], []⟩ none).1 none =
      ((fill_relationships cs fs ss ⟨[], [], []⟩ none).1, .okNone,
       [.committed, .logInfo "Relationships filled successfully."]) := by
  have h1 : (allPairs cs fs).foldl addLink [] = allPairs cs fs := by
    simpa using foldl_addLink_of_fresh (allPairs cs fs) []
      (allPairs_nodup cs fs hc hf) (by simp)
  have h2 : (allPairs cs ss).foldl addLink [] = allPairs cs ss := by
    simpa using foldl_addLink_of_fresh (allPairs cs ss) []
      (allPairs_nodup cs ss hc hs) (by simp)
  have h3 : (allPairs fs ss).foldl addLink [] = allPairs fs ss := by
    simpa using foldl_addLink_of_fresh (allPairs fs ss) []
      (allPairs_nodup fs ss hf hs) (by simp)
  have hfill1 : fill_relationships cs fs ss ⟨[], [], []⟩ none =
      (⟨allPairs cs fs, allPairs cs ss, allPairs fs ss⟩, .okNone,
       [.committed, .logInfo "Relationships filled successfully."]) := by
    unfold fill_relationships
    rw [show (⟨[], [], []⟩ : LinkState).charFilm = [] from rfl,
      show (⟨[], [], []⟩ : LinkState).charShip = [] from rfl,
      show (⟨[], [], []⟩ : LinkState).filmShip = [] from rfl,
      h1, h2, h3]
  have hfill2 : fill_relationships cs fs ss
      ⟨allPairs cs fs, allPairs cs ss, allPairs fs ss⟩ none =
      (⟨allPairs cs fs, allPairs cs ss, allPairs fs ss⟩, .okNone,
       [.committed, .logInfo "Relationships filled successfully."]) := by
    unfold fill_relationships
    rw [show (⟨allPairs cs fs, allPairs cs ss, allPairs fs ss⟩ :
          LinkState).charFilm = allPairs cs fs from rfl,
      show (⟨allPairs cs fs, allPairs cs ss, allPairs fs ss⟩ :
          LinkState).charShip = allPairs cs ss from rfl,
      show (⟨allPairs cs fs, allPairs cs ss, allPairs fs ss⟩ :
          LinkState).filmShip = allPairs fs ss from rfl,
      foldl_addLink_of_subset (allPairs cs fs) (allPairs cs fs) fun x hx => hx,
      foldl_addLink_of_subset (allPairs cs ss) (allPairs cs ss) fun x hx => hx,
      foldl_addLink_of_subset (allPairs fs ss) (allPairs fs ss) fun x hx => hx]
  refine ⟨by rw [hfill1], by rw [hfill1], allPairs_length cs fs,
    allPairs_length cs ss, allPairs_length fs ss,
    fun c hcm f hfm => (mem_allPairs cs fs (c, f)).mpr ⟨hcm, hfm⟩,
    fun c hcm s hsm => (mem_allPairs cs ss (c, s)).mpr ⟨hcm, hsm⟩,
    fun f hfm s hsm => (mem_allPairs fs ss (f, s)).mpr ⟨hfm, hsm⟩, ?_⟩
  rw [hfill1]
  exact hfill2

theorem fill_relationships_cross_product_closure_witness :
    (fill_relationships [0, 1] [7] [3, 4] ⟨[], [], []⟩ none).1 =
      ⟨allPairs [0, 1] [7], allPairs [0, 1] [3, 4], allPairs [7] [3, 4]⟩ :=
  (fill_relationships_cross_product_closure [0, 1] [7] [3, 4]
    (by decide) (by decide) (by decide)).1

theorem charsStep_frame (env : SyncEnv) (db : Database) :
    (charsStep env db).1.films = db.films ∧
    (charsStep env db).1.ships = db.ships ∧
    (charsStep env db).1.links = db.links := by
  unfold charsStep
  rcases (fetch_from_swapi env.peopleAtt 3 2 true).1 with xs | s
  · simp
  · simp
  · simp

theorem filmsStep_frame (env : SyncEnv) (db : Database) :
    (filmsStep env db).1.chars = db.chars ∧
    (filmsStep env db).1.ships = db.ships ∧
    (filmsStep env db).1.links = db.links := by
  unfold filmsStep
  rcases (fetch_from_swapi env.filmsAtt 3 2 true).1 with xs | s
  · simp
  · simp
  · simp

/-- C6: `sync_all` runs the fixed sequence characters, films,
starships, relationships; when the characters step succeeds and the
films step fails, the failure propagates as the overall result, the
remaining steps never run (the starship rows and the links are exactly
the ones before the call), and there is no compensating rollback: the
character rows committed by the first step remain persisted
unchanged. -/
theorem sync_all_no_cross_step_rollback (env : SyncEnv)
    (db db1 db2 : Database) (o : SyncOutcome)
    (h1 : charsStep env db = (db1, .ok))
    (h2 : filmsStep env db1 = (db2, o))
    (ho : o ≠ .ok) :
    sync_all env db = (db2, o) ∧
    db2.chars = db1.chars ∧
    db2.ships = db.ships ∧
    db2.links = db.links := by
  have hcf := charsStep_frame env db
  have hff := filmsStep_frame env db1
  rw [h1] at hcf
  rw [h2] at hff
  refine ⟨?_, hff.1, ?_, ?_⟩
  · unfold sync_all
    rw [h1]
    show (match filmsStep env db1 with
          | (db2, SyncOutcome.ok) =>
            match shipsStep env db2 with
            | (db3, SyncOutcome.ok) => fillStep env db3
            | r => r
          | r => r) = (db2, o)
    rw [h2]
    cases o with
    | ok => exact absurd rfl ho
    | fetchFailed s => rfl
    | storeSysExit c => rfl
    | storeRaised e => rfl
  · rw [hff.2.1, hcf.2.1]
  · rw [hff.2.2, hcf.2.2]

theorem sync_all_no_cross_step_rollback_witness :
    sync_all envFilmsFail emptyDB = (emptyDB, .fetchFailed 502) ∧
    emptyDB.chars = emptyDB.chars ∧
    emptyDB.ships = emptyDB.ships ∧
    emptyDB.links = emptyDB.links :=
  sync_all_no_cross_step_rollback envFilmsFail emptyDB emptyDB emptyDB
    (.fetchFailed 502) rfl rfl (by decide)

theorem sync_characters_items (att : Nat → AttemptOutcome) (db : Database)
    (fault : Option DBError) (x : Record) (rest : List Record)
    (hf : (fetch_from_swapi att 3 2 true).1 = .items (x :: rest)) :
    sync_characters att db fault =
      syncCharsResult db (store_characters db.chars (x :: rest) fault)
        (x :: rest).length := by
  unfold sync_characters
  rw [hf]

/-- C8 counterexample: the claim says the store operation reports the
newly-added count `k` to its caller.  On a sync fetching two characters
of which only Leia was new (`k = 1`), the route answers the caller with
the total fetched count — "2 characters synced successfully" — and the
store call returns `None`; the newly-added count 1 appears only in the
log line "Stored 1/2 Character". -/
theorem store_report_count_cex :
    (sync_characters attLukeLeia dbWithLuke none).2 =
      .msg "2 characters synced successfully" ∧
    store_characters dbWithLuke.chars [lukeRec, leiaRec] none =
      (sessLukeLeia, .okNone,
       [.committed, .logInfo "Stored 1/2 Character"]) :=
  ⟨rfl, rfl⟩

/-- C8 (amended): `store_objects` returns `None` to its caller and only
logs the newly-added count `k` (as "Stored k/n"); the sync route reports
the total number `n` of fetched records in its success message, not the
number of newly added rows. -/
theorem store_returns_none_route_reports_input_count
    (att : Nat → AttemptOutcome) (db : Database) (fault : Option DBError)
    (xs : List Record) (sess : Session) (ev : List Event)
    (hf : (fetch_from_swapi att 3 2 true).1 = .items xs)
    (hne : xs ≠ [])
    (hs : store_characters db.chars xs fault = (sess, .okNone, ev)) :
    sync_characters att db fault =
      ({ db with chars := sess }, .msg (syncedMsg xs.length)) ∧
    ∃ st, stageLoop db.chars.persisted CharacterMC "name"
        (xs.map projectCharacter) = .ok st ∧
      ev = [.committed,
            .logInfo (storedMsg st.length xs.length CharacterMC.name)] := by
  constructor
  · cases xs with
    | nil => exact absurd rfl hne
    | cons x rest =>
        rw [sync_characters_items att db fault x rest hf, hs]
        rfl
  · have hs' : store_objects db.chars CharacterMC (xs.map projectCharacter)
        "name" fault = (sess, .okNone, ev) := hs
    rcases store_objects_spec db.chars CharacterMC (xs.map projectCharacter)
        "name" fault with ⟨st, hst, _, _, he⟩ | ⟨e, he⟩
    · refine ⟨st, hst, ?_⟩
      have hev := congrArg (fun t => t.2.2) (he.symm.trans hs')
      simp only at hev
      rw [← hev, List.length_map]
    · have hout := congrArg (fun t => t.2.1) (he.symm.trans hs')
      simp only at hout
      exact absurd hout (classifiedOutcome_ne_ok e)

theorem store_returns_none_route_reports_input_count_witness :
    sync_characters attLukeLeia dbWithLuke none =
      ({ dbWithLuke with chars := sessLukeLeia }, .msg (syncedMsg 2)) ∧
    ∃ st, stageLoop dbWithLuke.chars.persisted CharacterMC "name"
        ([lukeRec, leiaRec].map projectCharacter) = .ok st ∧
      ([Event.committed, Event.logInfo "Stored 1/2 Character"] : List Event) =
        [.committed, .logInfo (storedMsg st.length 2 CharacterMC.name)] :=
  store_returns_none_route_reports_input_count attLukeLeia dbWithLuke none
    [lukeRec, leiaRec] sessLukeLeia
    [.committed, .logInfo "Stored 1/2 Character"]
    rfl (by decide) rfl

end SwapiCrud
